import Mathlib

/-!
Shallow embedding of the value-marshaling core of the `mlua` repository
(`src/conversion.rs`, `src/multi.rs`): bidirectional conversion between host
types and the VM's tagged value representation, for single values and for
ordered multi-value lists.

Conventions of the embedding:
* VM byte strings are `List Nat` (each entry a byte).
* The VM float (`f64`) payload is modeled as `Rat`; host integers are
  mathematical `Int` and the source's `num_traits::cast` calls are embedded
  with their exact range checks and rounding/truncation behavior.
* Fallible functions return `Except LuaError`.
* `MultiValue` is a `List Value` whose head is the front of the deque.
-/

/-- Error taxonomy of the repository's `error.rs` (only the variants reachable
from the conversion core). `runtimeError` carries the message bytes of
`Error::runtime`. -/
inductive LuaError where
  | toLuaConversionError (fromTy toTy : String) (message : Option String)
  | fromLuaConversionError (fromTy toTy : String) (message : Option String)
  | runtimeError (message : List Nat)
  deriving DecidableEq, Repr

/-- The VM value model (`Value` in `value.rs`): a closed tagged union, one
constructor per VM value kind. Reference kinds (string payload apart) carry an
opaque handle identifier. -/
inductive Value where
  | nil
  | boolean (b : Bool)
  | lightUserData (p : Nat)
  | integer (i : Int)
  | number (n : Rat)
  | str (bytes : List Nat)
  | table (h : Nat)
  | function (h : Nat)
  | thread (h : Nat)
  | userData (h : Nat)
  | error (e : LuaError)
  deriving DecidableEq, Repr

/-- Modelled from the spec: `Value::type_name` (the kind name used in the
`from` field of `FromVmConversionError`); `value.rs` is not part of the
excerpt.  Names follow the VM's standard kind names. -/
def Value.typeName : Value → String
  | .nil => "nil"
  | .boolean _ => "boolean"
  | .lightUserData _ => "lightuserdata"
  | .integer _ => "integer"
  | .number _ => "number"
  | .str _ => "string"
  | .table _ => "table"
  | .function _ => "function"
  | .thread _ => "thread"
  | .userData _ => "userdata"
  | .error _ => "error"

/-! ## Numeric cast helpers (embedding of `num_traits::cast`) -/

/-- Truncation of a rational toward zero, the behavior of Rust's
float-to-integer `as` cast used by `num_traits` after its range check. -/
def ratTrunc (q : Rat) : Int :=
  if 0 ≤ q.num then ((q.num.toNat / q.den : Nat) : Int)
  else -(((-q.num).toNat / q.den : Nat) : Int)

/-- Number of halvings needed to bring `n` below `2 ^ 53` (the width of an
`f64` mantissa).  Fuel-based so that it reduces in the kernel; 256 units of
fuel cover every value of a 128-bit source integer. -/
def f64Shift : Nat → Nat → Nat
  | 0, _ => 0
  | fuel + 1, n => if n < 2 ^ 53 then 0 else f64Shift fuel (n / 2) + 1

/-- Round a natural number to the nearest `f64`-representable value
(round half to even), the behavior of Rust's integer-to-`f64` `as` cast.
Source integers are at most 128 bits wide, far below `f64` overflow. -/
def roundNatF64 (n : Nat) : Nat :=
  let s := f64Shift 256 n
  if s = 0 then n
  else
    let q := n / 2 ^ s
    let r := n % 2 ^ s
    let half := 2 ^ (s - 1)
    let q' := if half < r ∨ (r = half ∧ q % 2 = 1) then q + 1 else q
    q' * 2 ^ s

/-- Embedding of `self as f64` on a host integer (`num_traits`' integer to
float cast, which always succeeds, rounding to nearest, ties to even). -/
def intAsF64 (x : Int) : Rat :=
  if 0 ≤ x then ((roundNatF64 x.toNat : Nat) : Rat)
  else -((roundNatF64 (-x).toNat : Nat) : Rat)

/-- Embedding of `num_traits::cast` from a host integer to the VM's native
integer (`i64`): exact, defined iff the value is in range. -/
def castToI64 (x : Int) : Option Int :=
  if -(2 ^ 63) ≤ x ∧ x < 2 ^ 63 then some x else none

/-- Description of an integer target type of the `lua_convert_int!` macro
(`i8`, `u8`, ..., `i128`, `u128`, `isize`, `usize`): signedness, bit width and
the `stringify!($x)` name.  `isize`/`usize` have 64 bits on the supported
platforms. -/
structure IntTarget where
  signed : Bool
  bits : Nat
  name : String
  deriving DecidableEq, Repr

/-- Smallest value of the target type. -/
def IntTarget.lo (t : IntTarget) : Int :=
  if t.signed then -(2 ^ (t.bits - 1)) else 0

/-- Largest value of the target type. -/
def IntTarget.hi (t : IntTarget) : Int :=
  if t.signed then 2 ^ (t.bits - 1) - 1 else 2 ^ t.bits - 1

/-- Embedding of `num_traits::cast` from the VM integer (`i64`) to the target
type: exact, defined iff the value is in the target's range. -/
def IntTarget.castInt (t : IntTarget) (i : Int) : Option Int :=
  if t.lo ≤ i ∧ i ≤ t.hi then some i else none

/-- Embedding of `num_traits::cast` from `f64` to the target integer type:
values in the admissible range are truncated toward zero, others are rejected.
The admissible range follows `num_traits`' `ToPrimitive` for floats: for
signed targets narrower than the float it is the exclusive range
`(MIN - 1, MAX + 1)`; for 64-bit-or-wider signed targets it is
`[MIN, MAX + 1)`; for unsigned targets it is `(-1, MAX + 1)`. -/
def IntTarget.castF64 (t : IntTarget) (n : Rat) : Option Int :=
  if t.signed then
    if t.bits < 64 then
      if -((2 : Rat) ^ (t.bits - 1)) - 1 < n ∧ n < (2 : Rat) ^ (t.bits - 1) then
        some (ratTrunc n)
      else none
    else
      if -((2 : Rat) ^ (t.bits - 1)) ≤ n ∧ n < (2 : Rat) ^ (t.bits - 1) then
        some (ratTrunc n)
      else none
  else
    if -1 < n ∧ n < (2 : Rat) ^ t.bits then some (ratTrunc n) else none

/-! ## Coercion policy (spec section 4.2)

The coercion primitives live in `state.rs`, which is not part of the excerpt;
they are modelled from the spec. -/

/-- ASCII decimal digits of a natural number. -/
def decimalDigits (n : Nat) : List Nat :=
  (Nat.toDigits 10 n).map Char.toNat

/-- ASCII decimal representation of an integer. -/
def decimalBytes (i : Int) : List Nat :=
  if 0 ≤ i then decimalDigits i.toNat else 45 :: decimalDigits (-i).toNat

/-- Modelled from the spec: the VM's numeral-to-string formatting for floats;
the spec fixes no concrete format, so an injective rendering of the rational
as numerator, a slash, and denominator is used. -/
def numberBytes (n : Rat) : List Nat :=
  decimalBytes n.num ++ [47] ++ decimalDigits n.den

/-- Value of a nonempty all-digit byte list, `none` otherwise. -/
def digitsVal (l : List Nat) : Option Nat :=
  if l.isEmpty then none
  else
    l.foldl
      (fun acc b =>
        match acc with
        | none => none
        | some a => if 48 ≤ b ∧ b ≤ 57 then some (a * 10 + (b - 48)) else none)
      (some 0)

/-- Modelled from the spec: parsing of a decimal integer numeral string
("strings representing numerals coerce"). -/
def parseDecimal (bytes : List Nat) : Option Int :=
  match bytes with
  | 45 :: rest => (digitsVal rest).map (fun n => -(n : Int))
  | _ => (digitsVal bytes).map (fun n => (n : Int))

/-- Modelled from the spec: `coerce_to_integer` (`Lua::coerce_integer` in
`state.rs`): integers pass through, floats with zero fractional part in the
VM integer range convert, numeral strings parse, everything else fails. -/
def coerceInteger : Value → Option Int
  | .integer i => some i
  | .number n =>
    if n.den = 1 ∧ -(2 ^ 63) ≤ n.num ∧ n.num < 2 ^ 63 then some n.num else none
  | .str s => (parseDecimal s).bind (fun i =>
      if -(2 ^ 63) ≤ i ∧ i < 2 ^ 63 then some i else none)
  | _ => none

/-- Modelled from the spec: `coerce_to_number` (`Lua::coerce_number` in
`state.rs`): integers and floats convert, numeral strings parse, everything
else fails. -/
def coerceNumber : Value → Option Rat
  | .integer i => some ((i : Int) : Rat)
  | .number n => some n
  | .str s => (parseDecimal s).map (fun i => ((i : Int) : Rat))
  | _ => none

/-- Modelled from the spec: `coerce_to_string` (`Lua::coerce_string` in
`state.rs`): strings pass through, numbers format via the VM's numeral
formatting, every other kind fails. -/
def coerceString : Value → Option (List Nat)
  | .str s => some s
  | .integer i => some (decimalBytes i)
  | .number n => some (numberBytes n)
  | _ => none

/-! ## UTF-8 validity (host `String` extraction) -/

/-- True iff the byte is a UTF-8 continuation byte. -/
def isCont (b : Nat) : Bool := 0x80 ≤ b ∧ b ≤ 0xBF

/-- Fuel-based worker for `validUtf8`; each step consumes at least one byte,
so fuel equal to the length of the list suffices. -/
def validUtf8Fuel : Nat → List Nat → Bool
  | 0, l => l.isEmpty
  | _ + 1, [] => true
  | fuel + 1, b :: rest =>
    if b ≤ 0x7F then validUtf8Fuel fuel rest
    else if 0xC2 ≤ b ∧ b ≤ 0xDF then
      match rest with
      | c :: rest2 => isCont c && validUtf8Fuel fuel rest2
      | [] => false
    else if 0xE0 ≤ b ∧ b ≤ 0xEF then
      match rest with
      | c :: d :: rest2 =>
        let okc :=
          if b = 0xE0 then decide (0xA0 ≤ c ∧ c ≤ 0xBF)
          else if b = 0xED then decide (0x80 ≤ c ∧ c ≤ 0x9F)
          else isCont c
        okc && isCont d && validUtf8Fuel fuel rest2
      | _ => false
    else if 0xF0 ≤ b ∧ b ≤ 0xF4 then
      match rest with
      | c :: d :: e :: rest2 =>
        let okc :=
          if b = 0xF0 then decide (0x90 ≤ c ∧ c ≤ 0xBF)
          else if b = 0xF4 then decide (0x80 ≤ c ∧ c ≤ 0x8F)
          else isCont c
        okc && isCont d && isCont e && validUtf8Fuel fuel rest2
      | _ => false
    else false

/-- Modelled from the spec: validity of a byte sequence as host-language
(UTF-8) string data, the check performed by `String::to_str` in `string.rs`
(not part of the excerpt). -/
def validUtf8 (l : List Nat) : Bool := validUtf8Fuel l.length l

/-- Embedding of `String::to_str().ok()`: the same bytes when they are valid
UTF-8, `none` otherwise. -/
def toStrOpt (l : List Nat) : Option (List Nat) :=
  if validUtf8 l then some l else none

/-! ## Single-value conversions (`conversion.rs`) -/

/-- `impl IntoLua for Value`: identity. -/
def valueIntoLua (v : Value) : Except LuaError Value := .ok v

/-- `impl FromLua for Value`: identity. -/
def valueFromLua (v : Value) : Except LuaError Value := .ok v

/-- `impl IntoLua for bool`. -/
def boolIntoLua (b : Bool) : Except LuaError Value := .ok (.boolean b)

/-- `impl FromLua for bool`: nil and false are false, everything else true. -/
def boolFromLua : Value → Except LuaError Bool
  | .nil => .ok false
  | .boolean b => .ok b
  | _ => .ok true

/-- `impl<T: FromLua> FromLua for Option<T>`: nil is `none`, any other value
converts with the inner conversion. -/
def optionFromLua (f : Value → Except LuaError α) : Value → Except LuaError (Option α)
  | .nil => .ok none
  | v => do
    let x ← f v
    .ok (some x)

/-- ASCII bytes of the fixed fallback message `<unprintable error>`. -/
def unprintableErrorBytes : List Nat :=
  ("<unprintable error>".toList).map Char.toNat

/-- `impl FromLua for Error`: a VM error value unwraps; every other value is
wrapped as a runtime error carrying its string coercion, or the fixed
`<unprintable error>` text when the value has no UTF-8 string coercion. -/
def fromLuaError : Value → Except LuaError LuaError
  | .error e => .ok e
  | v =>
    .ok (.runtimeError
      (((coerceString v).bind toStrOpt).getD unprintableErrorBytes))

/-- `lua_convert_int!` `IntoLua::into_lua`: try the cast to the VM integer,
fall back to the (always succeeding) cast to the VM float, and keep the
source's unreachable out-of-range error branch. -/
def luaConvertIntIntoLua (tyName : String) (x : Int) : Except LuaError Value :=
  match ((castToI64 x).map Value.integer).orElse
      (fun _ => some (Value.number (intAsF64 x))) with
  | some v => .ok v
  | none => .error (.toLuaConversionError tyName "number" (some "out of range"))

/-- `lua_convert_int!` `FromLua::from_lua`: VM integers and floats cast
directly; any other kind goes through `coerce_integer` then `coerce_number`;
a failed cast reports "out of range". -/
def luaConvertIntFromLua (t : IntTarget) (v : Value) : Except LuaError Int :=
  let castRes : Except LuaError (Option Int) :=
    match v with
    | .integer i => .ok (t.castInt i)
    | .number n => .ok (t.castF64 n)
    | _ =>
      match coerceInteger v with
      | some i => .ok (t.castInt i)
      | none =>
        match coerceNumber v with
        | some n => .ok (t.castF64 n)
        | none =>
          .error (.fromLuaConversionError v.typeName t.name
            (some "expected number or string coercible to number"))
  match castRes with
  | .error e => .error e
  | .ok (some x) => .ok x
  | .ok none =>
    .error (.fromLuaConversionError v.typeName t.name (some "out of range"))

/-- `lua_convert_float!` `IntoLua::into_lua`, parameterized by the host
type's cast into the VM float. -/
def luaConvertFloatIntoLua (tyName : String) (castSelfToF64 : Rat → Option Rat)
    (n : Rat) : Except LuaError Value :=
  match castSelfToF64 n with
  | some m => .ok (.number m)
  | none => .error (.toLuaConversionError tyName "number" (some "out of range"))

/-- `lua_convert_float!` `FromLua::from_lua`, parameterized by the cast from
the VM float back into the host type. -/
def luaConvertFloatFromLua (tyName : String) (castF64ToSelf : Rat → Option Rat)
    (v : Value) : Except LuaError Rat :=
  match coerceNumber v with
  | none =>
    .error (.fromLuaConversionError v.typeName tyName
      (some "expected number or string coercible to number"))
  | some n =>
    match castF64ToSelf n with
    | some m => .ok m
    | none =>
      .error (.fromLuaConversionError v.typeName tyName
        (some "number out of range"))

/-- `impl IntoLua for f64`: `num_traits::cast` from `f64` to `f64` always
succeeds and is the identity. -/
def f64IntoLua : Rat → Except LuaError Value := luaConvertFloatIntoLua "f64" some

/-- `impl FromLua for f64`. -/
def f64FromLua : Value → Except LuaError Rat := luaConvertFloatFromLua "f64" some

/-- Modelled from the spec: `Lua::create_string` (`alloc_string(bytes)`)
copies the host bytes into a fresh VM-managed string. -/
def createString (bytes : List Nat) : Value := .str bytes

/-- `impl IntoLua for StdString`: allocate a VM string from the bytes. -/
def stdStringIntoLua (s : List Nat) : Except LuaError Value := .ok (createString s)

/-- `impl FromLua for StdString`: coerce to a VM string, then extract host
string data (which requires valid UTF-8). -/
def stdStringFromLua (v : Value) : Except LuaError (List Nat) :=
  match coerceString v with
  | none =>
    .error (.fromLuaConversionError v.typeName "String"
      (some "expected string or number"))
  | some b =>
    match toStrOpt b with
    | some s => .ok s
    | none =>
      .error (.fromLuaConversionError "string" "String" (some "invalid utf-8"))

/-! ## Multi-value conversions (`multi.rs`)

`MultiValue` is a front/back deque of values; it is modeled as `List Value`
with the head as the front, so `push_front` is `cons`, `pop_front` is
`headD`/`tail`, and `push_back` appends. -/

/-- `impl<T: IntoLua> IntoLuaMulti for T`: a single value becomes a
one-element list (`with_lua_and_capacity 1` then `push_back`). -/
def intoLuaMultiSingle (f : α → Except LuaError Value) (a : α) :
    Except LuaError (List Value) := do
  let v ← f a
  .ok [v]

/-- `impl<T: FromLua> FromLuaMulti for T`: pop the front value (nil when the
list is empty) and convert it. -/
def fromLuaMultiOfFromLua (f : Value → Except LuaError α) (values : List Value) :
    Except LuaError α :=
  f (values.headD Value.nil)

/-- `impl FromLuaMulti for ()` (from `impl_tuple!()`): every input list is
accepted and discarded. -/
def unitFromLuaMulti (_values : List Value) : Except LuaError Unit := .ok ()

/-- `impl<T: IntoLua, E: IntoLua> IntoLuaMulti for StdResult<T, E>`:
`Ok(val)` converts as the one-tuple `(val,)`; `Err(err)` converts as the pair
`(Nil, err)` — the tail `err` first as a singleton, then `Nil` pushed in
front. -/
def resultIntoLuaMulti (fT : α → Except LuaError Value)
    (fE : β → Except LuaError Value) :
    Except β α → Except LuaError (List Value)
  | .ok val => intoLuaMultiSingle fT val
  | .error err => do
    let results ← intoLuaMultiSingle fE err
    let v ← valueIntoLua Value.nil
    .ok (v :: results)

/-- `impl<E: IntoLua> IntoLuaMulti for StdResult<(), E>`: `Ok(())` is the
empty list (`MultiValue::new()`); `Err(err)` converts like `(Nil, err)`. -/
def resultUnitIntoLuaMulti (fE : β → Except LuaError Value) :
    Except β Unit → Except LuaError (List Value)
  | .ok _ => .ok []
  | .error err => do
    let results ← intoLuaMultiSingle fE err
    let v ← valueIntoLua Value.nil
    .ok (v :: results)

/-- Conversion of each element in order, stopping at the first failure: the
shape shared by `MultiValue::extend_from_values` (used by
`IntoLuaMulti for Variadic<T>`) and the `collect::<Result<Vec<T>>>` of
`FromLuaMulti for Variadic<T>`. -/
def collectResults (f : α → Except LuaError β) : List α → Except LuaError (List β)
  | [] => .ok []
  | a :: rest => do
    let b ← f a
    let bs ← collectResults f rest
    .ok (b :: bs)

/-- `impl<T: IntoLua> IntoLuaMulti for Variadic<T>`: one VM value per element,
in order. -/
def variadicIntoLuaMulti (f : α → Except LuaError Value) (xs : List α) :
    Except LuaError (List Value) :=
  collectResults f xs

/-- `impl<T: FromLua> FromLuaMulti for Variadic<T>`: drain the whole incoming
list, converting every element. -/
def variadicFromLuaMulti (f : Value → Except LuaError α) (vs : List Value) :
    Except LuaError (List α) :=
  collectResults f vs

/-- The `impl_tuple!` ladder, `IntoLuaMulti` direction, for an arbitrary
arity of fixed positions with heterogeneous element types: the tail is
converted first, then the fixed conversions are pushed to the front in
reverse declaration order (position `n-1` first, position `0` last), exactly
as `push_reverse!` expands. -/
def tupleIntoLuaMultiD : (n : Nat) → (τ : Fin n → Type) →
    (f : (i : Fin n) → τ i → Except LuaError Value) →
    (xs : (i : Fin n) → τ i) →
    Except LuaError (List Value) → Except LuaError (List Value)
  | 0, _, _, _, last => last
  | n + 1, τ, f, xs, last => do
    let results ← tupleIntoLuaMultiD n (fun i => τ i.succ)
      (fun i => f i.succ) (fun i => xs i.succ) last
    let v ← f 0 (xs 0)
    .ok (v :: results)

/-- The `impl_tuple!` ladder, `FromLuaMulti` direction: each fixed position
pops the front value (nil when the list is exhausted) and converts it with
its own `FromLua`, front-to-back; the remainder of the list is passed to the
tail's `FromLuaMulti`. -/
def tupleFromLuaMultiD : (n : Nat) → (τ : Fin n → Type) →
    (f : (i : Fin n) → Value → Except LuaError (τ i)) →
    (fLast : List Value → Except LuaError σ) →
    List Value → Except LuaError ((∀ i, τ i) × σ)
  | 0, _, _, fLast, values => do
    let s ← fLast values
    .ok (fun i => i.elim0, s)
  | n + 1, τ, f, fLast, values => do
    let x0 ← f 0 (values.headD Value.nil)
    let rest ← tupleFromLuaMultiD n (fun i => τ i.succ)
      (fun i => f i.succ) fLast values.tail
    .ok (fun i => Fin.cases x0 rest.1 i, rest.2)

/-- `impl_tuple!(A B C)`, `FromLuaMulti` direction, written out concretely:
two fixed positions then the tail's `FromLuaMulti` on the remainder.  With a
plain `FromLua` type in the last slot (via `fromLuaMultiOfFromLua`) this is
the "3 fixed positions" tuple of the spec. -/
def tuple3FromLuaMulti (fA : Value → Except LuaError α)
    (fB : Value → Except LuaError β)
    (fLast : List Value → Except LuaError γ)
    (values : List Value) : Except LuaError (α × β × γ) := do
  let a ← fA (values.headD Value.nil)
  let values1 := values.tail
  let b ← fB (values1.headD Value.nil)
  let values2 := values1.tail
  let c ← fLast values2
  .ok (a, b, c)

/-! ## Remaining definitions used by the statements -/

instance {ε α : Type} [DecidableEq ε] [DecidableEq α] : DecidableEq (Except ε α) := fun
  | .error e, .error f => decidable_of_iff (e = f) (by simp)
  | .error _, .ok _ => isFalse (by simp)
  | .ok _, .error _ => isFalse (by simp)
  | .ok a, .ok b => decidable_of_iff (a = b) (by simp)

/-- The claim's reading of the message attached by `FromLua for Error` to a
non-error value: the value's string coercion, or the fixed
`<unprintable error>` text when the value cannot be coerced to a UTF-8
string. -/
def claimMessage (v : Value) : List Nat :=
  match coerceString v with
  | some s => if validUtf8 s then s else unprintableErrorBytes
  | none => unprintableErrorBytes

/-- The `i64` instantiation of `lua_convert_int!`. -/
def i64Target : IntTarget := ⟨true, 64, "i64"⟩

/-- The `i32` instantiation of `lua_convert_int!`. -/
def i32Target : IntTarget := ⟨true, 32, "i32"⟩

/-! ## The `f32` host type

The `f32` end of `lua_convert_float!` needs the narrowing `f64`-to-`f32`
cast (`num_traits`' `to_f32`, i.e. `self as f32`): IEEE 754 binary32
rounding to nearest with ties to even.  It is implemented below on the
rational model.  The finite `f32` values are then exactly the fixed points
of this rounding below the overflow threshold `2^128`. -/

/-- Number of binary digits of a natural number.  Fuel-based so that it
reduces in the kernel; recursion depth is the bit count itself, and 2000
units of fuel cover every numerator/denominator of a finite `f64` value
(whose magnitudes stay below `2^1075`). -/
def natBits : Nat → Nat → Nat
  | 0, _ => 0
  | fuel + 1, n => if n = 0 then 0 else natBits fuel (n / 2) + 1

/-- Floor of the base-2 logarithm of the positive rational `a / b`. -/
def ratLog2Floor (a b : Nat) : Int :=
  let d : Int := (natBits 2000 a : Int) - (natBits 2000 b : Int)
  let ge : Bool :=
    if 0 ≤ d then decide (b * 2 ^ d.toNat ≤ a) else decide (b ≤ a * 2 ^ (-d).toNat)
  if ge then d else d - 1

/-- Round the nonnegative rational `num / den` to the nearest integer, ties
to even. -/
def roundIntTiesEven (num den : Nat) : Nat :=
  let f := num / den
  let r := num % den
  if den < 2 * r then f + 1
  else if 2 * r < den then f
  else if r * 2 = den ∧ f % 2 = 1 then f + 1 else f

/-- Round the positive rational `a / b` to the binary32 grid: the unit in
the last place has exponent `max (e - 23) (-149)` where `e = ⌊log2 (a/b)⌋`
(the `-149` floor is the subnormal range), and the scaled significand is
rounded to nearest with ties to even. -/
def roundF32Pos (a b : Nat) : Rat :=
  let e := ratLog2Floor a b
  let ulp : Int := max (e - 23) (-149)
  let m : Nat :=
    if 0 ≤ ulp then roundIntTiesEven a (b * 2 ^ ulp.toNat)
    else roundIntTiesEven (a * 2 ^ (-ulp).toNat) b
  if 0 ≤ ulp then ((m * 2 ^ ulp.toNat : Nat) : Rat)
  else mkRat m (2 ^ (-ulp).toNat)

/-- Embedding of `self as f32` on a finite `f64` value (the cast behind
`num_traits`' `to_f32`, which always returns `Some`): round to nearest
binary32 value, ties to even.  A result of magnitude `2^128` or more stands
for the infinite float, which the rational model cannot represent. -/
def roundF32 (q : Rat) : Rat :=
  if q.num = 0 then 0
  else if 0 < q.num then roundF32Pos q.num.natAbs q.den
  else -(roundF32Pos q.num.natAbs q.den)

/-- Characterization of the finite values of the host `f32` type inside the
rational model: the fixed points of the binary32 rounding below the overflow
threshold (the rounding moves every non-representable rational and fixes
every representable one). -/
def isF32 (q : Rat) : Bool :=
  decide (roundF32 q = q ∧ q.num.natAbs < 2 ^ 128 * q.den)

/-- Embedding of `num_traits::cast` from `f64` to `f32`: `Some(self as f32)`,
never `None`. -/
def castF64ToF32 (n : Rat) : Option Rat := some (roundF32 n)

/-- Embedding of `num_traits::cast` from `f32` to `f64`: the exact widening
`Some(self as f64)`, the identity on the rational model of an `f32` value. -/
def castF32ToF64 (n : Rat) : Option Rat := some n

/-- `impl IntoLua for f32`. -/
def f32IntoLua : Rat → Except LuaError Value :=
  luaConvertFloatIntoLua "f32" castF32ToF64

/-- `impl FromLua for f32`. -/
def f32FromLua : Value → Except LuaError Rat :=
  luaConvertFloatFromLua "f32" castF64ToF32

/-! ## The remaining byte-string host types of `conversion.rs` -/

/-- `impl IntoLua for BString`: allocate a VM string from the bytes. -/
def bstringIntoLua (s : List Nat) : Except LuaError Value := .ok (createString s)

/-- `impl FromLua for BString`: a VM string yields its bytes directly (no
UTF-8 requirement); any other kind goes through the string coercion.  (The
Luau buffer arm is configuration-gated out.) -/
def bstringFromLua (v : Value) : Except LuaError (List Nat) :=
  match v with
  | .str s => .ok s
  | _ =>
    match coerceString v with
    | some b => .ok b
    | none =>
      .error (.fromLuaConversionError v.typeName "BString"
        (some "expected string or number"))

/-- `impl IntoLua for Box<str>`: allocate a VM string from the bytes. -/
def boxStrIntoLua (s : List Nat) : Except LuaError Value := .ok (createString s)

/-- `impl FromLua for Box<str>`: like the owned-string conversion (string
coercion then UTF-8 extraction), with target name `Box<str>`. -/
def boxStrFromLua (v : Value) : Except LuaError (List Nat) :=
  match coerceString v with
  | none =>
    .error (.fromLuaConversionError v.typeName "Box<str>"
      (some "expected string or number"))
  | some b =>
    match toStrOpt b with
    | some s => .ok s
    | none =>
      .error (.fromLuaConversionError "string" "Box<str>" (some "invalid utf-8"))

/-- `impl IntoLua for CString`: allocate a VM string from `self.as_bytes()`
(the content bytes, without the trailing nul).  A host `CString` is modeled
as its nul-free content bytes. -/
def cstringIntoLua (s : List Nat) : Except LuaError Value := .ok (createString s)

/-- `impl FromLua for CString`: coerce to a VM string, then re-parse the
bytes with the terminator appended (`CStr::from_bytes_with_nul` on
`as_bytes_with_nul`), which succeeds exactly when the coerced bytes contain
no interior nul. -/
def cstringFromLua (v : Value) : Except LuaError (List Nat) :=
  match coerceString v with
  | none =>
    .error (.fromLuaConversionError v.typeName "CString"
      (some "expected string or number"))
  | some s =>
    if s.contains 0 then
      .error (.fromLuaConversionError v.typeName "CString"
        (some "invalid C-style string"))
    else .ok s

/-! ## General helper lemmas -/

theorem tailGetD (l : List α) (i : Nat) (d : α) :
    l.tail.getD i d = l.getD (i + 1) d := by
  cases l <;> simp [List.getD]

theorem headDGetD (l : List α) (d : α) : l.headD d = l.getD 0 d := by
  cases l <;> simp [List.getD]

theorem tailDrop (l : List α) (n : Nat) : l.tail.drop n = l.drop (n + 1) := by
  cases l <;> simp

/-- Case analysis of the integer `into_lua`: in-range values become VM
integers, out-of-range values fall back to the float cast; no input reaches
the error branch. -/
theorem intoLuaIntCases (tyName : String) (x : Int) :
    luaConvertIntIntoLua tyName x =
      if -(2 ^ 63) ≤ x ∧ x < 2 ^ 63 then .ok (.integer x)
      else .ok (.number (intAsF64 x)) := by
  by_cases h : -(2 ^ 63) ≤ x ∧ x < 2 ^ 63
  · rw [if_pos h]
    simp only [luaConvertIntIntoLua, castToI64, if_pos h]
    rfl
  · rw [if_neg h]
    simp only [luaConvertIntIntoLua, castToI64, if_neg h]
    rfl

/-- Reduction of a bind on a successful `Except` computation. -/
theorem okBind (a : α) (f : α → Except ε β) :
    ((Except.ok a : Except ε α) >>= f) = f a := rfl

/-- Reduction of a bind on a failed `Except` computation. -/
theorem errBind (e : ε) (f : α → Except ε β) :
    ((Except.error e : Except ε α) >>= f) = .error e := rfl

/-! ## Claim theorems -/

/-- C8: the boolean target maps `Value::Nil` and `Value::Boolean(false)` to
`false`, and every other VM value — including integer 0 and the empty
string — to `true`; the conversion never fails. -/
theorem c8_bool_truthiness (v : Value) (h1 : v ≠ .nil) (h2 : v ≠ .boolean false) :
    boolFromLua .nil = .ok false ∧
    boolFromLua (.boolean false) = .ok false ∧
    boolFromLua v = .ok true := by
  refine ⟨rfl, rfl, ?_⟩
  cases v with
  | nil => exact absurd rfl h1
  | boolean b =>
    cases b with
    | false => exact absurd rfl h2
    | true => rfl
  | _ => rfl

theorem c8_bool_truthiness_witness :
    boolFromLua .nil = .ok false ∧
    boolFromLua (.boolean false) = .ok false ∧
    boolFromLua (.integer 0) = .ok true :=
  c8_bool_truthiness (.integer 0) (by decide) (by decide)

/-- C9: the unit multi-value target accepts every input list, discarding all
supplied values without converting or rejecting any element. -/
theorem c9_unit_from_lua_multi_total (values : List Value) :
    unitFromLuaMulti values = .ok () := rfl

/-- C10: conversion into the host `Error` type never fails: a VM error value
unwraps to exactly its payload, and every other VM value is wrapped as a
runtime error whose message is the value's string coercion, or
`<unprintable error>` when the value cannot be coerced to a UTF-8 string. -/
theorem c10_error_from_lua_total (v : Value) :
    fromLuaError v =
      .ok (match v with
        | .error e => e
        | _ => .runtimeError (claimMessage v)) := by
  cases v <;>
    simp [fromLuaError, claimMessage, coerceString, toStrOpt] <;>
    split <;> rfl

/-- C5: a 3-fixed-position tuple applied to a one-element list succeeds, with
positions 2 and 3 bound by converting nil: `false` for a boolean position,
`none` for an option position. -/
theorem c5_missing_argument_defaults (fA : Value → Except LuaError α)
    (g : Value → Except LuaError δ) (v1 : Value) (a : α)
    (h : fA v1 = .ok a) :
    tuple3FromLuaMulti fA boolFromLua
        (fromLuaMultiOfFromLua (optionFromLua g)) [v1] =
      .ok (a, false, none) := by
  simp [tuple3FromLuaMulti, fromLuaMultiOfFromLua, optionFromLua, boolFromLua,
    h, okBind]

theorem c5_missing_argument_defaults_witness :
    tuple3FromLuaMulti boolFromLua boolFromLua
        (fromLuaMultiOfFromLua (optionFromLua boolFromLua)) [.boolean true] =
      .ok (true, false, none) :=
  c5_missing_argument_defaults boolFromLua boolFromLua (.boolean true) true rfl

/-- C3: a host `Result` converts to the fixed nil-then-error protocol:
`Err(e)` yields exactly the two-element list `[nil, converted(e)]` (under
both the generic and the unit-success instance), `Ok(v)` yields exactly the
one-element list `[converted(v)]`, and `Ok(())` of the unit-success instance
yields the empty list. -/
theorem c3_result_nil_then_error (fT : α → Except LuaError Value)
    (fE : β → Except LuaError Value) (v : α) (e : β) (vt ve : Value)
    (hT : fT v = .ok vt) (hE : fE e = .ok ve) :
    resultIntoLuaMulti fT fE (.ok v) = .ok [vt] ∧
    resultIntoLuaMulti fT fE (.error e) = .ok [Value.nil, ve] ∧
    resultUnitIntoLuaMulti fE (.ok ()) = .ok [] ∧
    resultUnitIntoLuaMulti fE (.error e) = .ok [Value.nil, ve] := by
  refine ⟨?_, ?_, rfl, ?_⟩ <;>
    simp [resultIntoLuaMulti, resultUnitIntoLuaMulti, intoLuaMultiSingle,
      valueIntoLua, hT, hE, okBind]

theorem c3_result_nil_then_error_witness :
    resultIntoLuaMulti boolIntoLua boolIntoLua (.ok true) = .ok [.boolean true] ∧
    resultIntoLuaMulti boolIntoLua boolIntoLua (.error false) =
      .ok [Value.nil, .boolean false] ∧
    resultUnitIntoLuaMulti boolIntoLua (.ok ()) = .ok [] ∧
    resultUnitIntoLuaMulti boolIntoLua (.error false) =
      .ok [Value.nil, .boolean false] :=
  c3_result_nil_then_error boolIntoLua boolIntoLua true false
    (.boolean true) (.boolean false) rfl rfl

/-- C7: `Variadic<T>` conversion preserves length and order in both
directions: empty lists convert to empty variadics and back without error,
and a successfully converted list converts back — element by element, in the
original order — to the original list whenever the element conversions are
mutually inverse on the values involved. -/
theorem c7_variadic_length_order (f : Value → Except LuaError α)
    (g : α → Except LuaError Value) (vs : List Value) (xs : List α)
    (hinv : ∀ v x, f v = .ok x → g x = .ok v)
    (h : variadicFromLuaMulti f vs = .ok xs) :
    variadicFromLuaMulti f ([] : List Value) = .ok ([] : List α) ∧
    variadicIntoLuaMulti g ([] : List α) = .ok ([] : List Value) ∧
    xs.length = vs.length ∧
    variadicIntoLuaMulti g xs = .ok vs := by
  refine ⟨rfl, rfl, ?_⟩
  unfold variadicFromLuaMulti at h
  unfold variadicIntoLuaMulti
  induction vs generalizing xs with
  | nil =>
    simp [collectResults] at h
    subst h
    exact ⟨rfl, rfl⟩
  | cons v rest ih =>
    simp only [collectResults] at h
    cases hfv : f v with
    | error e =>
      rw [hfv, errBind] at h
      exact Except.noConfusion h
    | ok x =>
      simp only [hfv, okBind] at h
      cases hrest : collectResults f rest with
      | error e =>
        rw [hrest, errBind] at h
        exact Except.noConfusion h
      | ok ys =>
        simp only [hrest, okBind] at h
        injection h with h
        subst h
        obtain ⟨hlen, hinto⟩ := ih ys hrest
        refine ⟨by simp [hlen], ?_⟩
        simp only [collectResults, hinv v x hfv, okBind, hinto]

theorem c7_variadic_length_order_witness :
    variadicFromLuaMulti valueFromLua ([] : List Value) = .ok ([] : List Value) ∧
    variadicIntoLuaMulti valueIntoLua ([] : List Value) = .ok ([] : List Value) ∧
    ([Value.nil, .boolean true, .integer 7, .str [104, 105],
        .number 2] : List Value).length =
      ([Value.nil, .boolean true, .integer 7, .str [104, 105],
        .number 2] : List Value).length ∧
    variadicIntoLuaMulti valueIntoLua
        [Value.nil, .boolean true, .integer 7, .str [104, 105], .number 2] =
      .ok [Value.nil, .boolean true, .integer 7, .str [104, 105], .number 2] :=
  c7_variadic_length_order valueFromLua valueIntoLua
    [Value.nil, .boolean true, .integer 7, .str [104, 105], .number 2]
    [Value.nil, .boolean true, .integer 7, .str [104, 105], .number 2]
    (fun v x hx => by
      simp only [valueFromLua, Except.ok.injEq] at hx
      rw [← hx]
      rfl)
    rfl

/-- Helper for C4, `IntoLuaMulti` direction of the tuple ladder: when every
fixed conversion and the tail succeed, the result is the fixed conversions in
declaration order followed by the tail's expansion. -/
theorem tupleIntoDOk : ∀ (n : Nat) (τ : Fin n → Type)
    (f : (i : Fin n) → τ i → Except LuaError Value) (xs : (i : Fin n) → τ i)
    (v : Fin n → Value) (tail : List Value),
    (∀ i, f i (xs i) = .ok (v i)) →
    tupleIntoLuaMultiD n τ f xs (.ok tail) = .ok (List.ofFn v ++ tail)
  | 0, _, _, _, v, tail, _ => by
    simp [tupleIntoLuaMultiD]
  | n + 1, τ, f, xs, v, tail, hf => by
    simp only [tupleIntoLuaMultiD]
    rw [tupleIntoDOk n (fun i => τ i.succ) (fun i => f i.succ)
      (fun i => xs i.succ) (fun i => v i.succ) tail (fun i => hf i.succ)]
    rw [okBind, hf 0, okBind]
    simp [List.ofFn_succ]

/-- Helper for C4: a failing tail is converted first, so its error is the
overall result regardless of the fixed positions. -/
theorem tupleIntoDTailErr : ∀ (n : Nat) (τ : Fin n → Type)
    (f : (i : Fin n) → τ i → Except LuaError Value) (xs : (i : Fin n) → τ i)
    (e : LuaError),
    tupleIntoLuaMultiD n τ f xs (.error e) = .error e
  | 0, _, _, _, _ => rfl
  | n + 1, τ, f, xs, e => by
    simp only [tupleIntoLuaMultiD]
    rw [tupleIntoDTailErr n (fun i => τ i.succ) (fun i => f i.succ)
      (fun i => xs i.succ) e]
    rfl

/-- Helper for C4, `FromLuaMulti` direction of the tuple ladder: the fixed
positions consume the first `n` list positions front-to-back (nil when the
list is shorter) and the tail receives the remainder. -/
theorem tupleFromDOk : ∀ (n : Nat) (τ : Fin n → Type)
    (g : (i : Fin n) → Value → Except LuaError (τ i))
    (gLast : List Value → Except LuaError σ) (input : List Value)
    (x : ∀ i, τ i) (s : σ),
    (∀ i : Fin n, g i (input.getD i.val Value.nil) = .ok (x i)) →
    gLast (input.drop n) = .ok s →
    tupleFromLuaMultiD n τ g gLast input = .ok (x, s)
  | 0, τ, g, gLast, input, x, s, _, hLast => by
    have hx : (fun i : Fin 0 => i.elim0) = x := funext fun i => i.elim0
    simp only [tupleFromLuaMultiD]
    rw [List.drop_zero] at hLast
    rw [hLast, okBind, hx]
  | n + 1, τ, g, gLast, input, x, s, hg, hLast => by
    simp only [tupleFromLuaMultiD]
    have h0 : g 0 (input.getD 0 Value.nil) = .ok (x 0) := hg 0
    rw [headDGetD, h0, okBind]
    rw [tupleFromDOk n (fun i => τ i.succ) (fun i => g i.succ) gLast
      input.tail (fun i => x i.succ) s
      (fun i => by rw [tailGetD]; exact hg i.succ)
      (by rw [tailDrop]; exact hLast)]
    rw [okBind]
    have hx : (fun i : Fin (n + 1) => Fin.cases (x 0) (fun j => x j.succ) i) = x := by
      funext i
      induction i using Fin.cases <;> simp
    rw [hx]

/-- C4: for a tuple of `n` fixed positions and a multi-valued tail,
`into_lua_multi` converts the tail first (a tail error is the overall
result) and pushes the fixed conversions in front in reverse declaration
order, so the final list is the fixed elements in declaration order followed
by the tail's expansion; `from_lua_multi` consumes the `n` fixed positions
front-to-back, defaulting missing positions to nil, before passing the
remainder of the list to the tail. -/
theorem c4_tuple_fixed_then_tail (n : Nat) (τ σ' : Fin n → Type)
    (f : (i : Fin n) → τ i → Except LuaError Value) (xs : (i : Fin n) → τ i)
    (v : Fin n → Value) (tail : List Value) (e : LuaError)
    (g : (i : Fin n) → Value → Except LuaError (σ' i))
    (gLast : List Value → Except LuaError σ) (input : List Value)
    (y : ∀ i, σ' i) (s : σ)
    (hf : ∀ i, f i (xs i) = .ok (v i))
    (hg : ∀ i : Fin n, g i (input.getD i.val Value.nil) = .ok (y i))
    (hLast : gLast (input.drop n) = .ok s) :
    tupleIntoLuaMultiD n τ f xs (.ok tail) = .ok (List.ofFn v ++ tail) ∧
    tupleIntoLuaMultiD n τ f xs (.error e) = .error e ∧
    tupleFromLuaMultiD n σ' g gLast input = .ok (y, s) :=
  ⟨tupleIntoDOk n τ f xs v tail hf,
   tupleIntoDTailErr n τ f xs e,
   tupleFromDOk n σ' g gLast input y s hg hLast⟩

theorem c4_tuple_fixed_then_tail_witness :
    tupleIntoLuaMultiD 2 (fun _ => Bool) (fun _ b => boolIntoLua b)
        (fun i => i.val = 0) (.ok [Value.integer 7]) =
      .ok (List.ofFn (fun i : Fin 2 => Value.boolean (i.val = 0)) ++
        [Value.integer 7]) ∧
    tupleIntoLuaMultiD 2 (fun _ => Bool) (fun _ b => boolIntoLua b)
        (fun i => i.val = 0)
        (.error (.runtimeError [])) =
      .error (.runtimeError []) ∧
    tupleFromLuaMultiD 2 (fun _ => Bool) (fun _ v => boolFromLua v)
        (fun l => Except.ok l) [Value.boolean true] =
      .ok (fun i : Fin 2 => decide (i.val = 0), []) :=
  c4_tuple_fixed_then_tail 2 (fun _ => Bool) (fun _ => Bool)
    (fun _ b => boolIntoLua b) (fun i => i.val = 0)
    (fun i => Value.boolean (i.val = 0)) [Value.integer 7]
    (.runtimeError [])
    (fun _ v => boolFromLua v) (fun l => Except.ok l) [Value.boolean true]
    (fun i => decide (i.val = 0)) []
    (fun i => rfl)
    (fun i => by fin_cases i <;> rfl)
    rfl

set_option maxRecDepth 8000 in
/-- C1 counterexample: `into_lua` on the out-of-range 128-bit integer
`i128::MAX = 2^127 - 1` does not return a `ToVmConversionError`; it succeeds
with the VM float `2^127`, a lossy value (the second conjunct shows the loss). -/
theorem c1_into_lua_lossy_counterexample :
    luaConvertIntIntoLua "i128" (((2 ^ 127 - 1 : Nat) : Int)) =
      .ok (.number ((2 ^ 127 : Nat) : Rat)) ∧
    (((2 ^ 127 - 1 : Nat) : Int) : Rat) ≠ ((2 ^ 127 : Nat) : Rat) := by
  constructor
  · decide
  · decide

/-- C1 amended: `into_lua` of a numeric host type never returns an error.
An integer representable as the VM integer becomes `Value::Integer`; an
out-of-range integer falls back to the always-succeeding (possibly lossy)
float cast and becomes `Value::Number`; a float host value always becomes
`Value::Number`.  The `ToVmConversionError` branch is unreachable. -/
theorem c1_into_lua_never_fails_amended :
    (∀ (tyName : String) (x : Int),
      luaConvertIntIntoLua tyName x =
        if -(2 ^ 63) ≤ x ∧ x < 2 ^ 63 then .ok (.integer x)
        else .ok (.number (intAsF64 x))) ∧
    (∀ (tyName : String) (n : Rat),
      luaConvertFloatIntoLua tyName some n = .ok (.number n)) :=
  ⟨intoLuaIntCases, fun _ _ => rfl⟩

/-- C2 counterexample: `from_lua` into `i64` of the VM float `2.5` — a value
with a fractional component — does not fail with "out of range"; it silently
truncates toward zero and returns `2`. -/
theorem c2_from_lua_truncates_counterexample :
    luaConvertIntFromLua i64Target (.number (mkRat 5 2)) = .ok 2 := by
  decide

/-- C2 amended: `from_lua` into an integer target rejects VM values whose
magnitude lies outside the target's admissible range with a
`FromVmConversionError` whose reason is "out of range" (both for VM integers
and VM floats); a VM float inside the admissible range — fractional or not —
is truncated toward zero rather than rejected. -/
theorem c2_from_lua_range_amended (t : IntTarget) (i : Int) (n₁ n₂ : Rat)
    (m : Int)
    (h1 : t.castInt i = none) (h2 : t.castF64 n₁ = none)
    (h3 : t.castF64 n₂ = some m) :
    luaConvertIntFromLua t (.integer i) =
      .error (.fromLuaConversionError "integer" t.name (some "out of range")) ∧
    luaConvertIntFromLua t (.number n₁) =
      .error (.fromLuaConversionError "number" t.name (some "out of range")) ∧
    luaConvertIntFromLua t (.number n₂) = .ok m := by
  refine ⟨?_, ?_, ?_⟩ <;>
    simp [luaConvertIntFromLua, Value.typeName, h1, h2, h3]

theorem c2_from_lua_range_amended_witness :
    luaConvertIntFromLua i64Target (.integer (2 ^ 63)) =
      .error (.fromLuaConversionError "integer" "i64" (some "out of range")) ∧
    luaConvertIntFromLua i64Target (.number ((2 : Rat) ^ 64)) =
      .error (.fromLuaConversionError "number" "i64" (some "out of range")) ∧
    luaConvertIntFromLua i64Target (.number (mkRat 5 2)) = .ok 2 :=
  c2_from_lua_range_amended i64Target (2 ^ 63) ((2 : Rat) ^ 64) (mkRat 5 2) 2
    (by decide) (by decide) (by decide)

/-- C6: round trip `from_vm (to_vm x) = x` for every primitive host type
with both conversion directions: any integer target value that is also in
the VM integer range, any value of the VM float type (`f64`), any finite
`f32` value, any boolean, any valid (UTF-8) owned string (`StdString` and
`Box<str>` alike), any byte string (`BString`, no UTF-8 requirement), and
any nul-free C-style string round-trip exactly. -/
theorem c6_round_trip (t : IntTarget) (x : Int) (n n2 : Rat) (b : Bool)
    (s bs cs : List Nat)
    (hx1 : t.lo ≤ x ∧ x ≤ t.hi) (hx2 : -(2 ^ 63) ≤ x ∧ x < 2 ^ 63)
    (hn2 : isF32 n2 = true) (hs : validUtf8 s = true)
    (hcs : cs.contains 0 = false) :
    (luaConvertIntIntoLua t.name x).bind (luaConvertIntFromLua t) = .ok x ∧
    (f64IntoLua n).bind f64FromLua = .ok n ∧
    (f32IntoLua n2).bind f32FromLua = .ok n2 ∧
    (boolIntoLua b).bind boolFromLua = .ok b ∧
    (stdStringIntoLua s).bind stdStringFromLua = .ok s ∧
    (boxStrIntoLua s).bind boxStrFromLua = .ok s ∧
    (bstringIntoLua bs).bind bstringFromLua = .ok bs ∧
    (cstringIntoLua cs).bind cstringFromLua = .ok cs := by
  have hn2' : roundF32 n2 = n2 ∧ n2.num.natAbs < 2 ^ 128 * n2.den := by
    have h := hn2
    simp only [isF32, decide_eq_true_eq] at h
    exact h
  have hround : roundF32 n2 = n2 := hn2'.1
  have hcs' : (0 : Nat) ∉ cs := by simpa using hcs
  refine ⟨?_, rfl, ?_, ?_, ?_, ?_, rfl, ?_⟩
  · rw [intoLuaIntCases, if_pos hx2]
    show luaConvertIntFromLua t (.integer x) = .ok x
    simp [luaConvertIntFromLua, IntTarget.castInt, hx1]
  · show f32FromLua (.number n2) = .ok n2
    simp [f32FromLua, luaConvertFloatFromLua, coerceNumber, castF64ToF32, hround]
  · cases b <;> rfl
  · show stdStringFromLua (.str s) = .ok s
    simp [stdStringFromLua, coerceString, toStrOpt, hs]
  · show boxStrFromLua (.str s) = .ok s
    simp [boxStrFromLua, coerceString, toStrOpt, hs]
  · show cstringFromLua (.str cs) = .ok cs
    simp [cstringFromLua, coerceString, hcs']

theorem c6_round_trip_witness :
    (luaConvertIntIntoLua i32Target.name 5).bind (luaConvertIntFromLua i32Target) =
      .ok 5 ∧
    (f64IntoLua (mkRat 3 2)).bind f64FromLua = .ok (mkRat 3 2) ∧
    (f32IntoLua (mkRat 3 2)).bind f32FromLua = .ok (mkRat 3 2) ∧
    (boolIntoLua true).bind boolFromLua = .ok true ∧
    (stdStringIntoLua [97, 98]).bind stdStringFromLua = .ok [97, 98] ∧
    (boxStrIntoLua [97, 98]).bind boxStrFromLua = .ok [97, 98] ∧
    (bstringIntoLua [0, 255]).bind bstringFromLua = .ok [0, 255] ∧
    (cstringIntoLua [99]).bind cstringFromLua = .ok [99] :=
  c6_round_trip i32Target 5 (mkRat 3 2) (mkRat 3 2) true [97, 98] [0, 255] [99]
    (by decide) (by decide) (by decide) (by decide) (by decide)
